import Mathlib

/-!
Shallow embedding of the scheduling-and-execution core of the DayZ
AutomationZ Scheduler (`app/main.py`): remote-path normalization
(`norm_remote` and the `remote_full` expression), the inline mapping
resolver, the task runner `App._run_upload_for_task`, and the scheduler
tick `App._tick` / `App._check_tasks`.

File-system probes and network behaviour are passed in as explicit
oracles; every network call and every log line the source emits is
recorded as an event so that theorems can speak about "no connection was
opened" or "a warning was logged".
-/

/-! ### Path normalization (main.py lines 37-38 and 899, 906, 914)

Python `s.replace("\\", "/")` with a one-character pattern replaces each
backslash character, `s.lstrip("/")` drops leading `/` characters,
`s.rstrip("/")` drops trailing ones and `s.strip("/")` drops both.
They are modelled character-wise on `List Char`.
-/

def replSlashL (l : List Char) : List Char :=
  l.map (fun c => if c = '\\' then '/' else c)

def lstripSlashL (l : List Char) : List Char :=
  l.dropWhile (fun c => c == '/')

def rstripSlashL (l : List Char) : List Char :=
  (l.reverse.dropWhile (fun c => c == '/')).reverse

def stripSlashL (l : List Char) : List Char :=
  lstripSlashL (rstripSlashL l)

/-- `norm_remote` (main.py line 37): `path.replace("\\", "/").lstrip("/")`. -/
def norm_remote (s : String) : String :=
  String.mk (lstripSlashL (replSlashL s.data))

def rstripSlash (s : String) : String :=
  String.mk (rstripSlashL s.data)

def stripSlash (s : String) : String :=
  String.mk (stripSlashL s.data)

/-- main.py line 899: `root = norm_remote(p.root or "/")` (`""` is falsy). -/
def effRoot (proot : String) : String :=
  norm_remote (if proot = "" then "/" else proot)

/-- main.py lines 906/914:
`remote_full = "/" + (root.rstrip("/") + "/" + norm_remote(m.remote_path)).strip("/")`. -/
def remoteFull (root rp : String) : String :=
  "/" ++ stripSlash (rstripSlash root ++ "/" ++ norm_remote rp)

example : norm_remote "\\configs\\loot.xml" = "configs/loot.xml" := by rfl
example : effRoot "/dayzstandalone/" = "dayzstandalone/" := by rfl
example :
    remoteFull (effRoot "/dayzstandalone/") "\\configs\\loot.xml" =
      "/dayzstandalone/configs/loot.xml" := by rfl
example :
    remoteFull (effRoot "/dayzstandalone/") "configs//loot.xml" =
      "/dayzstandalone/configs//loot.xml" := by rfl

/-- Two adjacent characters do not form a duplicated `/` separator. -/
def SlashOk (a b : Char) : Prop := ¬(a = '/' ∧ b = '/')

instance : DecidableRel SlashOk := fun a b => by
  unfold SlashOk; infer_instance

/-- Number of leading `/` characters of a string. -/
def leadSlashes (s : String) : Nat :=
  (s.data.takeWhile (fun c => c == '/')).length

/-! ### Data model (main.py lines 77-93) -/

structure Profile where
  name : String
  host : String
  port : Int
  username : String
  password : String
  tls : Bool
  root : String
deriving DecidableEq, Repr

structure Mapping where
  name : String
  enabled : Bool
  local_relpath : String
  remote_path : String
  backup_before_overwrite : Bool
deriving DecidableEq, Repr

/-- The fields of a task record that `_run_upload_for_task` reads
(main.py lines 873-876); each is the raw JSON string with the Python
`or`-defaults already folded into `""`. -/
structure RunTask where
  profile : String
  preset : String
  mapping_mode : String
  mappings : List String
deriving DecidableEq, Repr

/-! ### Mapping resolution (main.py line 888)

`use_mappings = [m for m in self.mappings if (m.name in selected_names)]
if mode == "selected" else [m for m in self.mappings if m.enabled]` -/

def resolveMappings (mode : String) (selectedNames : List String)
    (mappings : List Mapping) : List Mapping :=
  if mode = "selected" then
    mappings.filter (fun m => selectedNames.contains m.name)
  else
    mappings.filter (fun m => m.enabled)

/-- Python `str.strip()` with no argument: drop leading and trailing
whitespace, modelled character-wise. -/
def pyStrip (s : String) : String :=
  String.mk ((((s.data.dropWhile Char.isWhitespace).reverse).dropWhile
    Char.isWhitespace).reverse)

/-- main.py line 875: `(task.get("mapping_mode", "enabled") or "enabled").strip()`. -/
def effModeStr (s : String) : String :=
  pyStrip (if s = "" then "enabled" else s)

def useMappings (task : RunTask) (mappings : List Mapping) : List Mapping :=
  resolveMappings (effModeStr task.mapping_mode) task.mappings mappings

/-- main.py line 878: `next((x for x in self.profiles if x.name == profile_name), None)`. -/
def findProfile (profiles : List Profile) (pn : String) : Option Profile :=
  profiles.find? (fun x => x.name == pn)

/-- File-system oracle: whether `presets_dir / preset` exists and whether
`presets_dir / preset / relpath` exists (main.py lines 883-884, 894). -/
structure FS where
  presetDirExists : String → Bool
  localFileExists : String → String → Bool

/-- Network behaviour oracle: whether `connect` succeeds, and per remote
path whether the backup `download` returns True and whether `upload`
raises (main.py lines 154-185). -/
structure NetBehavior where
  connectOk : Bool
  downloadOk : String → Bool
  uploadOk : String → Bool

/-- main.py line 894:
`missing = [m.local_relpath for m in use_mappings if not (preset_dir / m.local_relpath).exists()]`. -/
def missingList (fs : FS) (preset : String) (maps : List Mapping) : List String :=
  (maps.filter (fun m => !(fs.localFileExists preset m.local_relpath))).map
    (fun m => m.local_relpath)

/-- Events of one `_run_upload_for_task` call: `net*` constructors are
calls on the transfer client, the others are log lines. -/
inductive REv where
  | errProfileNotFound (name : String)
  | errPresetNotFound (preset : String)
  | errNoMappings
  | errMissingFiles (missing : List String)
  | netConnect
  | dryWouldUpload (localRel remote : String)
  | netDownload (remote : String)
  | backupOk (remote : String)
  | backupWarn (remote : String)
  | netUpload (remote : String)
  | uploaded (localRel remote : String)
  | uploadError
  | netClose
deriving DecidableEq, Repr

/-- The per-mapping loop of main.py lines 912-927 (non-dry run, after a
successful connect).  A failed backup download logs a warning and falls
through to the upload; an upload exception ends the loop with `False`
(the `except` block at lines 930-933). -/
def uploadLoop (net : NetBehavior) (root : String) :
    List Mapping → Bool × List REv
  | [] => (true, [])
  | m :: rest =>
    let rf := remoteFull root m.remote_path
    let bevs :=
      if m.backup_before_overwrite then
        [REv.netDownload rf,
         if net.downloadOk rf then REv.backupOk rf else REv.backupWarn rf]
      else []
    if net.uploadOk rf then
      let r := uploadLoop net root rest
      (r.1, bevs ++ [REv.netUpload rf, REv.uploaded m.local_relpath rf] ++ r.2)
    else
      (false, bevs ++ [REv.netUpload rf, REv.uploadError])

/-- `App._run_upload_for_task` (main.py lines 872-935).  The four
precondition checks return before the `try` block, hence without a
`close` call; every path through the `try` ends in `finally: cli.close()`. -/
def runUpload (profiles : List Profile) (mappings : List Mapping) (fs : FS)
    (net : NetBehavior) (task : RunTask) (dry_run : Bool) : Bool × List REv :=
  let profile_name := (pyStrip task.profile)
  let preset_name := (pyStrip task.preset)
  match findProfile profiles profile_name with
  | none => (false, [REv.errProfileNotFound profile_name])
  | some p =>
    if !(fs.presetDirExists preset_name) then
      (false, [REv.errPresetNotFound preset_name])
    else
      let use_mappings := useMappings task mappings
      if use_mappings.isEmpty then
        (false, [REv.errNoMappings])
      else
        let missing := missingList fs preset_name use_mappings
        if !missing.isEmpty then
          (false, [REv.errMissingFiles missing])
        else
          let root := effRoot p.root
          if dry_run then
            (true,
             (use_mappings.map (fun m =>
               REv.dryWouldUpload m.local_relpath (remoteFull root m.remote_path)))
               ++ [REv.netClose])
          else if !net.connectOk then
            (false, [REv.netConnect, REv.uploadError, REv.netClose])
          else
            let r := uploadLoop net root use_mappings
            (r.1, REv.netConnect :: r.2 ++ [REv.netClose])

/-! ### Scheduler tick (main.py lines 833-870)

`_check_tasks` reads the wall clock once per tick; `NowT` carries the
fields it uses.  The per-task `hour` / `minute` JSON fields are modelled
as `Option (Option Int)`: `none` means the key is absent (so
`t.get("hour", -1)` yields the default `-1`), `some none` means the
stored value makes `int(...)` raise (the `except: continue` at lines
856-857), and `some (some n)` means it converts to `n`. -/

structure NowT where
  year : Nat
  month : Nat
  day : Nat
  hour : Nat
  minute : Nat
  weekday : Nat
deriving DecidableEq, Repr

def daysMap : List String := ["Mon", "Tue", "Wed", "Thu", "Fri", "Sat", "Sun"]

def pad2 (n : Nat) : String :=
  if n < 10 then "0" ++ toString n else toString n

def pad4 (n : Nat) : String :=
  if n < 10 then "000" ++ toString n
  else if n < 100 then "00" ++ toString n
  else if n < 1000 then "0" ++ toString n
  else toString n

/-- main.py line 846: `now.strftime("%Y-%m-%d %H:%M")`. -/
def stampMinute (now : NowT) : String :=
  pad4 now.year ++ "-" ++ pad2 now.month ++ "-" ++ pad2 now.day ++ " " ++
    pad2 now.hour ++ ":" ++ pad2 now.minute

/-- The fields of a stored task record that `_check_tasks` reads. -/
structure SchedTask where
  name : String
  enabled : Bool
  days : List String
  hourF : Option (Option Int)
  minuteF : Option (Option Int)
  dryRun : Bool
  lastRun : Option String
deriving DecidableEq, Repr

/-- `int(t.get(key, d))`: absent key falls back to `d`; an unconvertible
stored value (`some none`) makes `int` raise, modelled as `none`. -/
def pyIntField (d : Int) : Option (Option Int) → Option Int
  | none => some d
  | some none => none
  | some (some n) => some n

/-- main.py line 858: `(t.get("last_run") or "")`. -/
def lastRunOr : Option String → String
  | none => ""
  | some s => s

/-- The four skip-guards of main.py lines 849-858 combined: the task is
triggered exactly when it is enabled, today's weekday name is in its
`days`, both time fields convert and equal the current hour and minute,
and its `last_run` differs from the current minute stamp. -/
def shouldTrigger (now : NowT) (t : SchedTask) : Bool :=
  t.enabled &&
  t.days.contains (daysMap.getD now.weekday "") &&
  (match pyIntField (-1) t.hourF, pyIntField (-1) t.minuteF with
   | some h, some m => h == (now.hour : Int) && m == (now.minute : Int)
   | _, _ => false) &&
  !(lastRunOr t.lastRun == stampMinute now)

/-- Outcome of one `_run_upload_for_task` call as seen by `_check_tasks`:
it returned `True`, returned `False`, or let an exception escape. -/
inductive RunRes where
  | ok
  | fail
  | exc
deriving DecidableEq, Repr

/-- Events of one tick, indexed by the task's position in the stored
list: `trigger` is the "[TASK] Trigger" info line, `ran` the call into
`_run_upload_for_task`, `saved` the `save_tasks` call, `completed` /
`failed` the completion info / failure warning lines, and `schedError`
the "Scheduler error" line of `_tick`'s `except` block. -/
inductive TickEv where
  | trigger (i : Nat)
  | ran (i : Nat)
  | saved (i : Nat)
  | completed (i : Nat)
  | failed (i : Nat)
  | schedError
deriving DecidableEq, Repr

/-- The `for` loop of `_check_tasks` (main.py lines 848-870) starting at
absolute task index `i`.  `runRes` gives each task's runner outcome and
`saveOk` whether `save_tasks` succeeds.  Returns the task list after the
loop, the emitted events, and whether an exception escaped the loop
(runner exception, or `save_tasks` raising after `last_run` was already
assigned); in the escape cases the remaining tasks are not evaluated. -/
def checkTasksAux (now : NowT) (runRes : Nat → RunRes) (saveOk : Bool) :
    Nat → List SchedTask → List SchedTask × List TickEv × Bool
  | _, [] => ([], [], false)
  | i, t :: rest =>
    if shouldTrigger now t then
      match runRes i with
      | RunRes.exc => (t :: rest, [TickEv.trigger i, TickEv.ran i], true)
      | RunRes.fail =>
        let r := checkTasksAux now runRes saveOk (i + 1) rest
        (t :: r.1, TickEv.trigger i :: TickEv.ran i :: TickEv.failed i :: r.2.1, r.2.2)
      | RunRes.ok =>
        let t2 := { t with lastRun := some (stampMinute now) }
        if saveOk then
          let r := checkTasksAux now runRes saveOk (i + 1) rest
          (t2 :: r.1,
           TickEv.trigger i :: TickEv.ran i :: TickEv.saved i ::
             TickEv.completed i :: r.2.1,
           r.2.2)
        else
          (t2 :: rest, [TickEv.trigger i, TickEv.ran i], true)
    else
      let r := checkTasksAux now runRes saveOk (i + 1) rest
      (t :: r.1, r.2.1, r.2.2)

def checkTasks (now : NowT) (runRes : Nat → RunRes) (saveOk : Bool)
    (tasks : List SchedTask) : List SchedTask × List TickEv × Bool :=
  checkTasksAux now runRes saveOk 0 tasks

/-- `App._tick` (main.py lines 833-840): a no-op while stopped; otherwise
it runs `_check_tasks` inside `try/except`, logging any escaped exception
as "Scheduler error".  The boolean in the result is whether an exception
escaped `_tick` itself: always `false`. -/
def tick (running : Bool) (now : NowT) (runRes : Nat → RunRes) (saveOk : Bool)
    (tasks : List SchedTask) : List SchedTask × List TickEv × Bool :=
  if running then
    let r := checkTasks now runRes saveOk tasks
    (r.1, r.2.1 ++ (if r.2.2 then [TickEv.schedError] else []), false)
  else
    (tasks, [], false)

/-! ### Helper lemmas about the tick loop -/

def tickEvIdx : TickEv → Option Nat
  | TickEv.trigger i => some i
  | TickEv.ran i => some i
  | TickEv.saved i => some i
  | TickEv.completed i => some i
  | TickEv.failed i => some i
  | TickEv.schedError => none

theorem ctA_nil (now : NowT) (r : Nat → RunRes) (s : Bool) (i : Nat) :
    checkTasksAux now r s i [] = ([], [], false) := rfl

theorem ct_idx_ge (now : NowT) (r : Nat → RunRes) (s : Bool) :
    ∀ (l : List SchedTask) (i : Nat) (e : TickEv),
      e ∈ (checkTasksAux now r s i l).2.1 → ∀ m, tickEvIdx e = some m → i ≤ m := by
  intro l
  induction l with
  | nil =>
    intro i e he m hm
    simp [ctA_nil] at he
  | cons t rest ih =>
    intro i e he m hm
    simp only [checkTasksAux] at he
    split at he
    · split at he
      · -- runner raised
        simp only [List.mem_cons, List.mem_singleton] at he
        rcases he with h1 | h1 | h1
        · subst h1; simp [tickEvIdx] at hm; omega
        · subst h1; simp [tickEvIdx] at hm; omega
        · simp at h1
      · -- runner returned False
        simp only [List.mem_cons] at he
        rcases he with h1 | h1 | h1 | h1
        · subst h1; simp [tickEvIdx] at hm; omega
        · subst h1; simp [tickEvIdx] at hm; omega
        · subst h1; simp [tickEvIdx] at hm; omega
        · have := ih (i + 1) e h1 m hm; omega
      · -- runner returned True
        split at he
        · simp only [List.mem_cons] at he
          rcases he with h1 | h1 | h1 | h1 | h1
          · subst h1; simp [tickEvIdx] at hm; omega
          · subst h1; simp [tickEvIdx] at hm; omega
          · subst h1; simp [tickEvIdx] at hm; omega
          · subst h1; simp [tickEvIdx] at hm; omega
          · have := ih (i + 1) e h1 m hm; omega
        · simp only [List.mem_cons, List.mem_singleton] at he
          rcases he with h1 | h1 | h1
          · subst h1; simp [tickEvIdx] at hm; omega
          · subst h1; simp [tickEvIdx] at hm; omega
          · simp at h1
    · have := ih (i + 1) e he m hm; omega

theorem ct_src (now : NowT) (r : Nat → RunRes) (s : Bool) :
    ∀ (l : List SchedTask) (i m : Nat),
      (TickEv.trigger m ∈ (checkTasksAux now r s i l).2.1 ∨
        TickEv.ran m ∈ (checkTasksAux now r s i l).2.1) →
      i ≤ m ∧ ∃ t, l[m - i]? = some t ∧ shouldTrigger now t = true := by
  intro l
  induction l with
  | nil =>
    intro i m he
    rcases he with he | he <;> simp [ctA_nil] at he
  | cons t rest ih =>
    intro i m he
    have hstep :
        (TickEv.trigger m ∈ (checkTasksAux now r s (i + 1) rest).2.1 ∨
          TickEv.ran m ∈ (checkTasksAux now r s (i + 1) rest).2.1) →
        i ≤ m ∧ ∃ u, (t :: rest)[m - i]? = some u ∧ shouldTrigger now u = true := by
      intro htl
      obtain ⟨hge, u, hu, htr⟩ := ih (i + 1) m htl
      refine ⟨by omega, u, ?_, htr⟩
      have hmi : m - i = (m - (i + 1)) + 1 := by omega
      rw [hmi]
      simpa using hu
    simp only [checkTasksAux] at he
    split at he
    case isTrue htrig =>
      split at he
      · rcases he with he | he <;> simp only [List.mem_cons, List.mem_singleton] at he <;>
          rcases he with h1 | h1 <;> simp at h1 <;> subst h1 <;>
          exact ⟨le_refl _, t, by simp [Nat.sub_self], htrig⟩
      · rcases he with he | he <;> simp only [List.mem_cons] at he <;>
          rcases he with h1 | h1 | h1 | h1 <;> try simp at h1
        · subst h1; exact ⟨le_refl _, t, by simp [Nat.sub_self], htrig⟩
        · exact hstep (Or.inl h1)
        · subst h1; exact ⟨le_refl _, t, by simp [Nat.sub_self], htrig⟩
        · exact hstep (Or.inr h1)
      · split at he
        · rcases he with he | he <;> simp only [List.mem_cons] at he <;>
            rcases he with h1 | h1 | h1 | h1 | h1 <;> try simp at h1
          · subst h1; exact ⟨le_refl _, t, by simp [Nat.sub_self], htrig⟩
          · exact hstep (Or.inl h1)
          · subst h1; exact ⟨le_refl _, t, by simp [Nat.sub_self], htrig⟩
          · exact hstep (Or.inr h1)
        · rcases he with he | he <;> simp only [List.mem_cons, List.mem_singleton] at he <;>
            rcases he with h1 | h1 <;> simp at h1 <;> subst h1 <;>
            exact ⟨le_refl _, t, by simp [Nat.sub_self], htrig⟩
    case isFalse htrig =>
      exact hstep he

theorem ct_state (now : NowT) (r : Nat → RunRes) (s : Bool) :
    ∀ (l : List SchedTask) (i k : Nat) (t : SchedTask), l[k]? = some t →
      (checkTasksAux now r s i l).1[k]? = some t ∨
      (shouldTrigger now t = true ∧ r (i + k) = RunRes.ok ∧
        (checkTasksAux now r s i l).1[k]? =
          some { t with lastRun := some (stampMinute now) }) := by
  intro l
  induction l with
  | nil => intro i k t hk; simp at hk
  | cons t0 rest ih =>
    intro i k t hk
    cases k with
    | zero =>
      simp only [List.getElem?_cons_zero] at hk
      injection hk with hk
      subst hk
      by_cases htrig : shouldTrigger now t0 = true
      · cases hr : r i with
        | exc => left; simp [checkTasksAux, htrig, hr]
        | fail => left; simp [checkTasksAux, htrig, hr]
        | ok =>
          right
          refine ⟨htrig, by simpa using hr, ?_⟩
          cases s <;> simp [checkTasksAux, htrig, hr]
      · left; simp [checkTasksAux, htrig]
    | succ k =>
      simp only [List.getElem?_cons_succ] at hk
      have hik : i + 1 + k = i + (k + 1) := by omega
      by_cases htrig : shouldTrigger now t0 = true
      · cases hr : r i with
        | exc => left; simp [checkTasksAux, htrig, hr, hk]
        | fail =>
          rcases ih (i + 1) k t hk with h | ⟨h1, h2, h3⟩
          · left; simp [checkTasksAux, htrig, hr, h]
          · right
            exact ⟨h1, by rw [← hik]; exact h2, by simp [checkTasksAux, htrig, hr, h3]⟩
        | ok =>
          cases s with
          | false => left; simp [checkTasksAux, htrig, hr, hk]
          | true =>
            rcases ih (i + 1) k t hk with h | ⟨h1, h2, h3⟩
            · left; simp [checkTasksAux, htrig, hr, h]
            · right
              exact ⟨h1, by rw [← hik]; exact h2, by simp [checkTasksAux, htrig, hr, h3]⟩
      · rcases ih (i + 1) k t hk with h | ⟨h1, h2, h3⟩
        · left; simp [checkTasksAux, htrig, h]
        · right
          exact ⟨h1, by rw [← hik]; exact h2, by simp [checkTasksAux, htrig, h3]⟩

theorem ct_completed (now : NowT) (r : Nat → RunRes) (s : Bool) :
    ∀ (l : List SchedTask) (i m : Nat),
      TickEv.completed m ∈ (checkTasksAux now r s i l).2.1 →
      i ≤ m ∧ ∃ t, l[m - i]? = some t ∧
        (checkTasksAux now r s i l).1[m - i]? =
          some { t with lastRun := some (stampMinute now) } := by
  intro l
  induction l with
  | nil => intro i m he; simp [ctA_nil] at he
  | cons t rest ih =>
    intro i m he
    simp only [checkTasksAux] at he
    split at he
    case isTrue htrig =>
      split at he
      · simp at he
      case h_2 hr =>
        simp only [List.mem_cons] at he
        rcases he with h1 | h1 | h1 | h1 <;> try simp at h1
        obtain ⟨hge, u, hu, hres⟩ := ih (i + 1) m h1
        have hmi : m - i = (m - (i + 1)) + 1 := by omega
        refine ⟨by omega, u, ?_, ?_⟩
        · rw [hmi]; simpa using hu
        · rw [hmi]
          simp only [checkTasksAux, htrig, if_true, hr]
          simpa using hres
      case h_3 hr =>
        split at he
        case isTrue hs =>
          subst hs
          simp only [List.mem_cons] at he
          rcases he with h1 | h1 | h1 | h1 | h1 <;> try simp at h1
          · subst h1
            refine ⟨le_refl _, t, by simp [Nat.sub_self], ?_⟩
            simp [checkTasksAux, htrig, hr, Nat.sub_self]
          · obtain ⟨hge, u, hu, hres⟩ := ih (i + 1) m h1
            have hmi : m - i = (m - (i + 1)) + 1 := by omega
            refine ⟨by omega, u, ?_, ?_⟩
            · rw [hmi]; simpa using hu
            · rw [hmi]
              simp only [checkTasksAux, htrig, if_true, hr]
              simpa using hres
        case isFalse hs => simp at he
    case isFalse htrig =>
      obtain ⟨hge, u, hu, hres⟩ := ih (i + 1) m he
      have hmi : m - i = (m - (i + 1)) + 1 := by omega
      refine ⟨by omega, u, ?_, ?_⟩
      · rw [hmi]; simpa using hu
      · rw [hmi]
        simp only [checkTasksAux, htrig, if_false]
        simpa using hres

theorem ct_failed (now : NowT) (r : Nat → RunRes) (s : Bool) :
    ∀ (l : List SchedTask) (i m : Nat),
      TickEv.ran m ∈ (checkTasksAux now r s i l).2.1 → r m = RunRes.fail →
      TickEv.failed m ∈ (checkTasksAux now r s i l).2.1 ∧
        (checkTasksAux now r s i l).1[m - i]? = l[m - i]? := by
  intro l
  induction l with
  | nil => intro i m he hf; simp [ctA_nil] at he
  | cons t rest ih =>
    intro i m he hf
    simp only [checkTasksAux] at he ⊢
    split at he
    case isTrue htrig =>
      split at he
      case h_1 hr =>
        simp only [List.mem_cons, List.mem_singleton] at he
        rcases he with h1 | h1 | h1 <;> try simp at h1
        subst h1
        rw [hr] at hf
        exact absurd hf (by simp)
      case h_2 hr =>
        simp only [List.mem_cons] at he
        simp only [htrig, if_true, hr, List.mem_cons]
        rcases he with h1 | h1 | h1 | h1 <;> try simp at h1
        · subst h1
          exact ⟨by simp, by simp [Nat.sub_self]⟩
        · obtain ⟨hmem, hst⟩ := ih (i + 1) m h1 hf
          have hge := ct_idx_ge now r s rest (i + 1) (TickEv.ran m) h1 m rfl
          have hmi : m - i = (m - (i + 1)) + 1 := by omega
          refine ⟨by tauto, ?_⟩
          rw [hmi]
          simpa using hst
      case h_3 hr =>
        split at he
        case isTrue hs =>
          subst hs
          simp only [List.mem_cons] at he
          simp only [htrig, if_true, hr, List.mem_cons]
          rcases he with h1 | h1 | h1 | h1 | h1 <;> try simp at h1
          · subst h1; rw [hr] at hf; exact absurd hf (by simp)
          · obtain ⟨hmem, hst⟩ := ih (i + 1) m h1 hf
            have hge := ct_idx_ge now r true rest (i + 1) (TickEv.ran m) h1 m rfl
            have hmi : m - i = (m - (i + 1)) + 1 := by omega
            refine ⟨by tauto, ?_⟩
            rw [hmi]
            simpa using hst
        case isFalse hs =>
          simp only [List.mem_cons, List.mem_singleton] at he
          rcases he with h1 | h1 | h1 <;> try simp at h1
          subst h1
          rw [hr] at hf
          exact absurd hf (by simp)
    case isFalse htrig =>
      obtain ⟨hmem, hst⟩ := ih (i + 1) m he hf
      have hge := ct_idx_ge now r s rest (i + 1) (TickEv.ran m) he m rfl
      have hmi : m - i = (m - (i + 1)) + 1 := by omega
      simp only [htrig, if_false]
      refine ⟨hmem, ?_⟩
      rw [hmi]
      simpa using hst

theorem ct_saved_none (now : NowT) (r : Nat → RunRes) (s : Bool)
    (hno : ∀ j, r j ≠ RunRes.ok) :
    ∀ (l : List SchedTask) (i m : Nat),
      TickEv.saved m ∉ (checkTasksAux now r s i l).2.1 := by
  intro l
  induction l with
  | nil => intro i m; simp [ctA_nil]
  | cons t rest ih =>
    intro i m
    simp only [checkTasksAux]
    split
    case isTrue htrig =>
      split
      case h_1 hr => simp
      case h_2 hr =>
        simp only [List.mem_cons]
        push_neg
        refine ⟨by simp, by simp, by simp, ih (i + 1) m⟩
      case h_3 hr => exact absurd hr (hno i)
    case isFalse htrig => exact ih (i + 1) m

theorem ct_all_ran (now : NowT) (r : Nat → RunRes)
    (hne : ∀ j, r j ≠ RunRes.exc) :
    ∀ (l : List SchedTask) (i : Nat),
      (checkTasksAux now r true i l).2.2 = false ∧
      ∀ (k : Nat) (t : SchedTask), l[k]? = some t → shouldTrigger now t = true →
        TickEv.ran (i + k) ∈ (checkTasksAux now r true i l).2.1 := by
  intro l
  induction l with
  | nil =>
    intro i
    exact ⟨rfl, by intro k t hk; simp at hk⟩
  | cons t0 rest ih =>
    intro i
    by_cases htrig : shouldTrigger now t0 = true
    · cases hr : r i with
      | exc => exact absurd hr (hne i)
      | fail =>
        constructor
        · simp [checkTasksAux, htrig, hr, (ih (i + 1)).1]
        · intro k t hk htr
          cases k with
          | zero => simp [checkTasksAux, htrig, hr]
          | succ k =>
            simp only [List.getElem?_cons_succ] at hk
            have := (ih (i + 1)).2 k t hk htr
            have hik : i + 1 + k = i + (k + 1) := by omega
            rw [hik] at this
            simp [checkTasksAux, htrig, hr]
            tauto
      | ok =>
        constructor
        · simp [checkTasksAux, htrig, hr, (ih (i + 1)).1]
        · intro k t hk htr
          cases k with
          | zero => simp [checkTasksAux, htrig, hr]
          | succ k =>
            simp only [List.getElem?_cons_succ] at hk
            have := (ih (i + 1)).2 k t hk htr
            have hik : i + 1 + k = i + (k + 1) := by omega
            rw [hik] at this
            simp [checkTasksAux, htrig, hr]
            tauto
    · constructor
      · simp [checkTasksAux, htrig, (ih (i + 1)).1]
      · intro k t hk htr
        cases k with
        | zero =>
          simp only [List.getElem?_cons_zero] at hk
          injection hk with hk
          subst hk
          exact absurd htr htrig
        | succ k =>
          simp only [List.getElem?_cons_succ] at hk
          have := (ih (i + 1)).2 k t hk htr
          have hik : i + 1 + k = i + (k + 1) := by omega
          rw [hik] at this
          simpa [checkTasksAux, htrig] using this

/-- A task whose `last_run` already equals the current minute stamp is
never triggered in that minute. -/
theorem shouldTrigger_stamped (now : NowT) (t : SchedTask) :
    shouldTrigger now { t with lastRun := some (stampMinute now) } = false := by
  simp [shouldTrigger, lastRunOr]

/-- Replacing a non-triggering task by another non-triggering task
changes neither the emitted events nor the escape flag, and changes the
resulting list only at that position: the remaining tasks are evaluated
exactly as before. -/
theorem ct_set (now : NowT) (r : Nat → RunRes) (s : Bool) :
    ∀ (l : List SchedTask) (i k : Nat) (t u : SchedTask),
      l[k]? = some t → shouldTrigger now t = false → shouldTrigger now u = false →
      (checkTasksAux now r s i (l.set k u)).1 = (checkTasksAux now r s i l).1.set k u ∧
      (checkTasksAux now r s i (l.set k u)).2.1 = (checkTasksAux now r s i l).2.1 ∧
      (checkTasksAux now r s i (l.set k u)).2.2 = (checkTasksAux now r s i l).2.2 := by
  intro l
  induction l with
  | nil => intro i k t u hk; simp at hk
  | cons t0 rest ih =>
    intro i k t u hk ht hu
    cases k with
    | zero =>
      simp only [List.getElem?_cons_zero] at hk
      injection hk with hk
      subst hk
      simp only [List.set_cons_zero]
      constructor
      · simp [checkTasksAux, ht, hu]
      constructor
      · simp [checkTasksAux, ht, hu]
      · simp [checkTasksAux, ht, hu]
    | succ k =>
      simp only [List.getElem?_cons_succ] at hk
      obtain ⟨ih1, ih2, ih3⟩ := ih (i + 1) k t u hk ht hu
      simp only [List.set_cons_succ]
      by_cases htrig : shouldTrigger now t0 = true
      · cases hr : r i with
        | exc =>
          refine ⟨?_, ?_, ?_⟩ <;> simp [checkTasksAux, htrig, hr]
        | fail =>
          refine ⟨?_, ?_, ?_⟩ <;> simp [checkTasksAux, htrig, hr, ih1, ih2, ih3]
        | ok =>
          cases s with
          | true =>
            refine ⟨?_, ?_, ?_⟩ <;> simp [checkTasksAux, htrig, hr, ih1, ih2, ih3]
          | false =>
            refine ⟨?_, ?_, ?_⟩ <;> simp [checkTasksAux, htrig, hr]
      · refine ⟨?_, ?_, ?_⟩ <;> simp [checkTasksAux, htrig, ih1, ih2, ih3]

/-! ### Concrete fixtures used by witnesses -/

def wNow : NowT :=
  { year := 2026, month := 10, day := 12, hour := 9, minute := 0, weekday := 0 }

def wTask : SchedTask :=
  { name := "swap", enabled := true, days := ["Mon"], hourF := some (some 9),
    minuteF := some (some 0), dryRun := false, lastRun := none }

/-! ### Claim theorems: scheduler tick -/

/-- C1: after a successful run the scheduler stores the current minute
stamp in the task's `last_run`; any subsequent tick at the same minute
neither logs a trigger for that task nor invokes the runner on it, and a
tick only ever rewrites `last_run` to the current stamp (never clears
it). -/
theorem task_fires_at_most_once_per_minute
    (now : NowT) (r₁ r₂ : Nat → RunRes) (s₁ s₂ : Bool)
    (tasks : List SchedTask) (i : Nat)
    (h : TickEv.completed i ∈ (checkTasks now r₁ s₁ tasks).2.1) :
    (∃ t, tasks[i]? = some t ∧
      (checkTasks now r₁ s₁ tasks).1[i]? =
        some { t with lastRun := some (stampMinute now) }) ∧
    TickEv.trigger i ∉ (checkTasks now r₂ s₂ ((checkTasks now r₁ s₁ tasks).1)).2.1 ∧
    TickEv.ran i ∉ (checkTasks now r₂ s₂ ((checkTasks now r₁ s₁ tasks).1)).2.1 ∧
    (∀ (k : Nat) (t t' : SchedTask), tasks[k]? = some t →
      (checkTasks now r₁ s₁ tasks).1[k]? = some t' →
      t' = t ∨ t' = { t with lastRun := some (stampMinute now) }) := by
  simp only [checkTasks] at h ⊢
  obtain ⟨-, t, ht, hres⟩ := ct_completed now r₁ s₁ tasks 0 i h
  rw [Nat.sub_zero] at ht hres
  have hskip : ∀ hmem : (TickEv.trigger i ∈
        (checkTasksAux now r₂ s₂ 0 ((checkTasksAux now r₁ s₁ 0 tasks).1)).2.1 ∨
      TickEv.ran i ∈
        (checkTasksAux now r₂ s₂ 0 ((checkTasksAux now r₁ s₁ 0 tasks).1)).2.1), False := by
    intro hmem
    obtain ⟨-, t', ht', htr⟩ :=
      ct_src now r₂ s₂ ((checkTasksAux now r₁ s₁ 0 tasks).1) 0 i hmem
    rw [Nat.sub_zero] at ht'
    rw [hres] at ht'
    injection ht' with ht'
    rw [← ht'] at htr
    rw [shouldTrigger_stamped] at htr
    exact absurd htr (by simp)
  refine ⟨⟨t, ht, hres⟩, fun hm => hskip (Or.inl hm), fun hm => hskip (Or.inr hm), ?_⟩
  intro k t1 t2 hk hk2
  rcases ct_state now r₁ s₁ tasks 0 k t1 hk with h1 | ⟨-, -, h1⟩ <;>
    rw [h1] at hk2 <;> injection hk2 with hk2
  · exact Or.inl hk2.symm
  · exact Or.inr hk2.symm

theorem task_fires_at_most_once_per_minute_witness :
    TickEv.completed 0 ∈ (checkTasks wNow (fun _ => RunRes.ok) true [wTask]).2.1 ∧
    ((∃ t, [wTask][0]? = some t ∧
      (checkTasks wNow (fun _ => RunRes.ok) true [wTask]).1[0]? =
        some { t with lastRun := some (stampMinute wNow) }) ∧
    TickEv.trigger 0 ∉ (checkTasks wNow (fun _ => RunRes.ok) true
      ((checkTasks wNow (fun _ => RunRes.ok) true [wTask]).1)).2.1 ∧
    TickEv.ran 0 ∉ (checkTasks wNow (fun _ => RunRes.ok) true
      ((checkTasks wNow (fun _ => RunRes.ok) true [wTask]).1)).2.1 ∧
    (∀ (k : Nat) (t t' : SchedTask), [wTask][k]? = some t →
      (checkTasks wNow (fun _ => RunRes.ok) true [wTask]).1[k]? = some t' →
      t' = t ∨ t' = { t with lastRun := some (stampMinute wNow) })) :=
  ⟨by decide,
   task_fires_at_most_once_per_minute wNow (fun _ => RunRes.ok) (fun _ => RunRes.ok)
     true true [wTask] 0 (by decide)⟩

/-- An inert task record: disabled, so no tick ever triggers it. -/
def inertTask : SchedTask :=
  { name := "", enabled := false, days := [], hourF := none, minuteF := none,
    dryRun := false, lastRun := none }

theorem shouldTrigger_inert (now : NowT) : shouldTrigger now inertTask = false := by
  simp [shouldTrigger, inertTask]

/-- C9: a task with `enabled = false` is never triggered and never passed
to the task runner, whatever the current time; the tick leaves it
unchanged. -/
theorem disabled_task_never_runs
    (now : NowT) (r : Nat → RunRes) (s : Bool) (tasks : List SchedTask)
    (i : Nat) (t : SchedTask)
    (h : tasks[i]? = some t) (he : t.enabled = false) :
    TickEv.ran i ∉ (checkTasks now r s tasks).2.1 ∧
    TickEv.trigger i ∉ (checkTasks now r s tasks).2.1 ∧
    (checkTasks now r s tasks).1[i]? = some t := by
  simp only [checkTasks]
  have hst : shouldTrigger now t = false := by
    simp [shouldTrigger, he]
  have hskip : ∀ hmem : (TickEv.trigger i ∈ (checkTasksAux now r s 0 tasks).2.1 ∨
      TickEv.ran i ∈ (checkTasksAux now r s 0 tasks).2.1), False := by
    intro hmem
    obtain ⟨-, t', ht', htr⟩ := ct_src now r s tasks 0 i hmem
    rw [Nat.sub_zero] at ht'
    rw [h] at ht'
    injection ht' with ht'
    rw [← ht'] at htr
    rw [hst] at htr
    exact absurd htr (by simp)
  refine ⟨fun hm => hskip (Or.inr hm), fun hm => hskip (Or.inl hm), ?_⟩
  rcases ct_state now r s tasks 0 i t h with h1 | ⟨h1, -, -⟩
  · exact h1
  · rw [hst] at h1; exact absurd h1 (by simp)

theorem disabled_task_never_runs_witness :
    ((⟨"off", false, ["Mon"], some (some 9), some (some 0), false, none⟩ :
        SchedTask).enabled = false) ∧
    (TickEv.ran 0 ∉ (checkTasks wNow (fun _ => RunRes.ok) true
        [⟨"off", false, ["Mon"], some (some 9), some (some 0), false, none⟩]).2.1 ∧
     TickEv.trigger 0 ∉ (checkTasks wNow (fun _ => RunRes.ok) true
        [⟨"off", false, ["Mon"], some (some 9), some (some 0), false, none⟩]).2.1 ∧
     (checkTasks wNow (fun _ => RunRes.ok) true
        [⟨"off", false, ["Mon"], some (some 9), some (some 0), false, none⟩]).1[0]? =
       some ⟨"off", false, ["Mon"], some (some 9), some (some 0), false, none⟩) :=
  ⟨by decide,
   disabled_task_never_runs wNow (fun _ => RunRes.ok) true
     [⟨"off", false, ["Mon"], some (some 9), some (some 0), false, none⟩] 0
     ⟨"off", false, ["Mon"], some (some 9), some (some 0), false, none⟩
     (by decide) (by decide)⟩

/-- C10: a task whose `hour` or `minute` field is absent or does not
convert to an integer never triggers (an absent field defaults to `-1`,
which never equals a real hour or minute; a conversion failure is caught
by the `except: continue`), the tick leaves it unchanged, it emits no
event at all for that task, and — shown by replacing it with an inert
record — the evaluation of every other task and the escape flag are
exactly what they would be without it. -/
theorem malformed_time_task_skipped
    (now : NowT) (r : Nat → RunRes) (s : Bool) (tasks : List SchedTask)
    (i : Nat) (t : SchedTask)
    (h : tasks[i]? = some t)
    (hbad : t.hourF = none ∨ t.hourF = some none ∨
      t.minuteF = none ∨ t.minuteF = some none) :
    shouldTrigger now t = false ∧
    TickEv.trigger i ∉ (checkTasks now r s tasks).2.1 ∧
    TickEv.ran i ∉ (checkTasks now r s tasks).2.1 ∧
    (checkTasks now r s tasks).1[i]? = some t ∧
    (checkTasks now r s (tasks.set i inertTask)).1 =
      (checkTasks now r s tasks).1.set i inertTask ∧
    (checkTasks now r s (tasks.set i inertTask)).2.1 = (checkTasks now r s tasks).2.1 ∧
    (checkTasks now r s (tasks.set i inertTask)).2.2 = (checkTasks now r s tasks).2.2 := by
  have hneg : ∀ n : Nat, ((-1 : Int) == (n : Int)) = false := by
    intro n
    rw [beq_eq_false_iff_ne]
    intro hc
    omega
  have hst : shouldTrigger now t = false := by
    have hmatch : (match pyIntField (-1) t.hourF, pyIntField (-1) t.minuteF with
        | some h, some m => h == (now.hour : Int) && m == (now.minute : Int)
        | _, _ => false) = false := by
      rcases hbad with hb | hb | hb | hb <;> rw [hb]
      · cases hm : pyIntField (-1) t.minuteF <;> simp [pyIntField, hneg]
      · cases hm : pyIntField (-1) t.minuteF <;> simp [pyIntField]
      · cases hh : pyIntField (-1) t.hourF <;> simp [pyIntField, hneg]
      · cases hh : pyIntField (-1) t.hourF <;> simp [pyIntField]
    simp only [shouldTrigger, hmatch]
    simp
  simp only [checkTasks]
  have hskip : ∀ hmem : (TickEv.trigger i ∈ (checkTasksAux now r s 0 tasks).2.1 ∨
      TickEv.ran i ∈ (checkTasksAux now r s 0 tasks).2.1), False := by
    intro hmem
    obtain ⟨-, t', ht', htr⟩ := ct_src now r s tasks 0 i hmem
    rw [Nat.sub_zero] at ht'
    rw [h] at ht'
    injection ht' with ht'
    rw [← ht'] at htr
    rw [hst] at htr
    exact absurd htr (by simp)
  obtain ⟨hs1, hs2, hs3⟩ :=
    ct_set now r s tasks 0 i t inertTask h hst (shouldTrigger_inert now)
  refine ⟨hst, fun hm => hskip (Or.inl hm), fun hm => hskip (Or.inr hm), ?_,
    hs1, hs2, hs3⟩
  rcases ct_state now r s tasks 0 i t h with h1 | ⟨h1, -, -⟩
  · exact h1
  · rw [hst] at h1; exact absurd h1 (by simp)

theorem malformed_time_task_skipped_witness :
    ([(⟨"bad", true, ["Mon"], none, some (some 0), false, none⟩ : SchedTask),
        wTask][0]? =
      some ⟨"bad", true, ["Mon"], none, some (some 0), false, none⟩) ∧
    (shouldTrigger wNow ⟨"bad", true, ["Mon"], none, some (some 0), false, none⟩
      = false ∧
    TickEv.trigger 0 ∉ (checkTasks wNow (fun _ => RunRes.ok) true
      [⟨"bad", true, ["Mon"], none, some (some 0), false, none⟩, wTask]).2.1 ∧
    TickEv.ran 0 ∉ (checkTasks wNow (fun _ => RunRes.ok) true
      [⟨"bad", true, ["Mon"], none, some (some 0), false, none⟩, wTask]).2.1 ∧
    (checkTasks wNow (fun _ => RunRes.ok) true
      [⟨"bad", true, ["Mon"], none, some (some 0), false, none⟩, wTask]).1[0]? =
      some ⟨"bad", true, ["Mon"], none, some (some 0), false, none⟩ ∧
    (checkTasks wNow (fun _ => RunRes.ok) true
      ([⟨"bad", true, ["Mon"], none, some (some 0), false, none⟩, wTask].set 0
        inertTask)).1 =
      (checkTasks wNow (fun _ => RunRes.ok) true
        [⟨"bad", true, ["Mon"], none, some (some 0), false, none⟩, wTask]).1.set 0
        inertTask ∧
    (checkTasks wNow (fun _ => RunRes.ok) true
      ([⟨"bad", true, ["Mon"], none, some (some 0), false, none⟩, wTask].set 0
        inertTask)).2.1 =
      (checkTasks wNow (fun _ => RunRes.ok) true
        [⟨"bad", true, ["Mon"], none, some (some 0), false, none⟩, wTask]).2.1 ∧
    (checkTasks wNow (fun _ => RunRes.ok) true
      ([⟨"bad", true, ["Mon"], none, some (some 0), false, none⟩, wTask].set 0
        inertTask)).2.2 =
      (checkTasks wNow (fun _ => RunRes.ok) true
        [⟨"bad", true, ["Mon"], none, some (some 0), false, none⟩, wTask]).2.2) :=
  ⟨by decide,
   malformed_time_task_skipped wNow (fun _ => RunRes.ok) true
     [⟨"bad", true, ["Mon"], none, some (some 0), false, none⟩, wTask] 0
     ⟨"bad", true, ["Mon"], none, some (some 0), false, none⟩
     (by decide) (Or.inl rfl)⟩

/-- C8: when a task's run was invoked by a tick and returned `False`,
the tick logs the failure warning, leaves that task's record (hence its
`last_run`) unchanged, and — as long as no run in the tick succeeded —
never calls the persistence hook. -/
theorem failed_run_leaves_task_unchanged
    (now : NowT) (r : Nat → RunRes) (s : Bool) (tasks : List SchedTask) (i : Nat)
    (h : TickEv.ran i ∈ (checkTasks now r s tasks).2.1)
    (hf : r i = RunRes.fail) :
    TickEv.failed i ∈ (checkTasks now r s tasks).2.1 ∧
    (checkTasks now r s tasks).1[i]? = tasks[i]? ∧
    ((∀ j, r j ≠ RunRes.ok) →
      ∀ j, TickEv.saved j ∉ (checkTasks now r s tasks).2.1) := by
  simp only [checkTasks] at h ⊢
  obtain ⟨hmem, hst⟩ := ct_failed now r s tasks 0 i h hf
  rw [Nat.sub_zero] at hst
  exact ⟨hmem, hst, fun hno j => ct_saved_none now r s hno tasks 0 j⟩

theorem failed_run_leaves_task_unchanged_witness :
    TickEv.ran 0 ∈ (checkTasks wNow (fun _ => RunRes.fail) true [wTask]).2.1 ∧
    (TickEv.failed 0 ∈ (checkTasks wNow (fun _ => RunRes.fail) true [wTask]).2.1 ∧
     (checkTasks wNow (fun _ => RunRes.fail) true [wTask]).1[0]? = [wTask][0]? ∧
     ((∀ j, (fun (_ : Nat) => RunRes.fail) j ≠ RunRes.ok) →
       ∀ j, TickEv.saved j ∉
         (checkTasks wNow (fun _ => RunRes.fail) true [wTask]).2.1)) :=
  ⟨by decide,
   failed_run_leaves_task_unchanged wNow (fun _ => RunRes.fail) true [wTask] 0
     (by decide) rfl⟩

/-- C2 (as stated) is false on the code: with two tasks both due at the
same minute, a `save_tasks` failure right after the first task's
successful run escapes the per-task loop, so the second task is never
evaluated in that tick (no trigger or run event for index 1), even
though it was due. -/
theorem save_failure_aborts_rest_of_tick_cex :
    shouldTrigger wNow wTask = true ∧
    (checkTasks wNow (fun _ => RunRes.ok) false [wTask, wTask]).2.1 =
      [TickEv.trigger 0, TickEv.ran 0] ∧
    TickEv.ran 1 ∉ (checkTasks wNow (fun _ => RunRes.ok) false [wTask, wTask]).2.1 ∧
    TickEv.trigger 1 ∉
      (checkTasks wNow (fun _ => RunRes.ok) false [wTask, wTask]).2.1 ∧
    (checkTasks wNow (fun _ => RunRes.ok) false [wTask, wTask]).2.2 = true := by
  decide

/-- C2 (amended): an exception inside the runner's transfer phase is
caught there and surfaces as a `False` return, so when no exception
escapes the runner and persistence succeeds, the tick evaluates every
due task even if earlier ones failed; an escaped exception (such as a
`save_tasks` failure) ends the loop early but is caught by `_tick`,
which logs a scheduler error instead of crashing. -/
theorem tick_error_containment
    (now now₂ : NowT) (r r₂ : Nat → RunRes) (s₂ : Bool)
    (tasks tasks₂ : List SchedTask)
    (hne : ∀ j, r j ≠ RunRes.exc) :
    ((checkTasks now r true tasks).2.2 = false ∧
     (∀ (k : Nat) (t : SchedTask), tasks[k]? = some t →
       shouldTrigger now t = true →
       TickEv.ran k ∈ (checkTasks now r true tasks).2.1)) ∧
    (tick true now₂ r₂ s₂ tasks₂).2.2 = false ∧
    ((checkTasks now₂ r₂ s₂ tasks₂).2.2 = true →
      TickEv.schedError ∈ (tick true now₂ r₂ s₂ tasks₂).2.1) := by
  refine ⟨⟨(ct_all_ran now r hne tasks 0).1, ?_⟩, by simp [tick], ?_⟩
  · intro k t hk htr
    have := (ct_all_ran now r hne tasks 0).2 k t hk htr
    simpa [checkTasks] using this
  · intro hesc
    simp [tick, hesc]

theorem tick_error_containment_witness :
    (checkTasks wNow (fun _ => RunRes.fail) true [wTask, wTask]).2.2 = false ∧
    TickEv.ran 1 ∈ (checkTasks wNow (fun _ => RunRes.fail) true [wTask, wTask]).2.1 ∧
    TickEv.schedError ∈ (tick true wNow (fun _ => RunRes.ok) false [wTask]).2.1 :=
  ⟨(tick_error_containment wNow wNow (fun _ => RunRes.fail) (fun _ => RunRes.ok)
      false [wTask, wTask] [wTask] (fun (j : Nat) => by simp)).1.1,
   (tick_error_containment wNow wNow (fun _ => RunRes.fail) (fun _ => RunRes.ok)
      false [wTask, wTask] [wTask] (fun (j : Nat) => by simp)).1.2 1 wTask (by decide)
     (by decide),
   (tick_error_containment wNow wNow (fun _ => RunRes.fail) (fun _ => RunRes.ok)
      false [wTask, wTask] [wTask] (fun (j : Nat) => by simp)).2.2 (by decide)⟩

/-! ### Claim theorems: mapping resolution -/

/-- C5: in `enabled` mode the resolver yields exactly the enabled
mappings as an ordered sub-sequence of the stored list; in `selected`
mode it yields exactly the mappings whose name is selected, again in
stored order, silently omitting selected names that match no mapping;
the result depends only on the membership of the selection, not its
order. -/
theorem resolver_pure_and_ordered
    (sel sel₂ : List String) (maps : List Mapping) :
    List.Sublist (resolveMappings "enabled" sel maps) maps ∧
    (∀ m : Mapping,
      m ∈ resolveMappings "enabled" sel maps ↔ m ∈ maps ∧ m.enabled = true) ∧
    List.Sublist (resolveMappings "selected" sel maps) maps ∧
    (∀ m : Mapping,
      m ∈ resolveMappings "selected" sel maps ↔ m ∈ maps ∧ m.name ∈ sel) ∧
    ((∀ n : String, n ∈ sel ↔ n ∈ sel₂) →
      resolveMappings "selected" sel maps = resolveMappings "selected" sel₂ maps) := by
  refine ⟨?_, ?_, ?_, ?_, ?_⟩
  · simp only [resolveMappings, reduceIte]
    exact List.filter_sublist maps
  · intro m
    simp [resolveMappings, List.mem_filter]
  · simp only [resolveMappings, reduceIte]
    exact List.filter_sublist maps
  · intro m
    simp [resolveMappings, List.mem_filter]
  · intro h
    simp only [resolveMappings, reduceIte]
    apply List.filter_congr
    intro a ha
    simp [List.contains, h a.name]

/-! ### Claim theorems: task runner preconditions -/

/-- The error event of the first failing precondition, in the order the
source checks them: profile, preset directory, resolved mappings,
local files. -/
def preFirstError (profiles : List Profile) (mappings : List Mapping) (fs : FS)
    (task : RunTask) : REv :=
  if findProfile profiles (pyStrip task.profile) = none then
    REv.errProfileNotFound (pyStrip task.profile)
  else if !(fs.presetDirExists (pyStrip task.preset)) then
    REv.errPresetNotFound (pyStrip task.preset)
  else if (useMappings task mappings).isEmpty then
    REv.errNoMappings
  else
    REv.errMissingFiles (missingList fs (pyStrip task.preset) (useMappings task mappings))

/-- C3: whenever any precondition fails — unknown profile, missing
preset directory, empty resolved mapping list, or at least one missing
local file — the run returns `False` after logging exactly the first
failing precondition's error, with no connection attempt, no upload call
and no upload log line. -/
theorem preconditions_fail_fast
    (profiles : List Profile) (mappings : List Mapping) (fs : FS)
    (net : NetBehavior) (task : RunTask) (dry : Bool)
    (hfail : findProfile profiles (pyStrip task.profile) = none ∨
      fs.presetDirExists (pyStrip task.preset) = false ∨
      (useMappings task mappings).isEmpty = true ∨
      missingList fs (pyStrip task.preset) (useMappings task mappings) ≠ []) :
    (runUpload profiles mappings fs net task dry).1 = false ∧
    (runUpload profiles mappings fs net task dry).2 =
      [preFirstError profiles mappings fs task] ∧
    REv.netConnect ∉ (runUpload profiles mappings fs net task dry).2 ∧
    (∀ rf : String, REv.netUpload rf ∉ (runUpload profiles mappings fs net task dry).2) ∧
    (∀ lf rf : String,
      REv.uploaded lf rf ∉ (runUpload profiles mappings fs net task dry).2) := by
  cases hp : findProfile profiles (pyStrip task.profile) with
  | none =>
    refine ⟨?_, ?_, ?_, ?_, ?_⟩ <;> simp [runUpload, preFirstError, hp]
  | some p =>
    cases hd : fs.presetDirExists (pyStrip task.preset) with
    | false =>
      refine ⟨?_, ?_, ?_, ?_, ?_⟩ <;> simp [runUpload, preFirstError, hp, hd]
    | true =>
      cases hm : (useMappings task mappings).isEmpty with
      | true =>
        refine ⟨?_, ?_, ?_, ?_, ?_⟩ <;> simp [runUpload, preFirstError, hp, hd, hm]
      | false =>
        cases hmiss : missingList fs (pyStrip task.preset) (useMappings task mappings) with
        | nil =>
          rcases hfail with h | h | h | h
          · rw [hp] at h; exact absurd h (by simp)
          · rw [hd] at h; exact absurd h (by simp)
          · rw [hm] at h; exact absurd h (by simp)
          · rw [hmiss] at h; exact absurd rfl h
        | cons a as =>
          have hne : (missingList fs (pyStrip task.preset) (useMappings task mappings)).isEmpty = false := by
            rw [hmiss]; rfl
          refine ⟨?_, ?_, ?_, ?_, ?_⟩ <;>
            simp [runUpload, preFirstError, hp, hd, hm, hne, hmiss]

def wProfile : Profile :=
  { name := "Main", host := "ftp.example.net", port := 21, username := "u",
    password := "p", tls := false, root := "/dayzstandalone/" }

def wM1 : Mapping :=
  { name := "loot", enabled := true, local_relpath := "configs/loot.xml",
    remote_path := "\\configs\\loot.xml", backup_before_overwrite := true }

def wM2 : Mapping :=
  { name := "events", enabled := true, local_relpath := "db/events.xml",
    remote_path := "db/events.xml", backup_before_overwrite := false }

def wMOff : Mapping :=
  { name := "spare", enabled := false, local_relpath := "spare.xml",
    remote_path := "spare.xml", backup_before_overwrite := false }

def wRunTask : RunTask :=
  { profile := "Main", preset := "raid", mapping_mode := "enabled", mappings := [] }

def wFSAll : FS :=
  { presetDirExists := fun _ => true, localFileExists := fun _ _ => true }

def wFSNoFiles : FS :=
  { presetDirExists := fun _ => true, localFileExists := fun _ _ => false }

def wNetOk : NetBehavior :=
  { connectOk := true, downloadOk := fun _ => false, uploadOk := fun _ => true }

theorem preconditions_fail_fast_witness :
    (findProfile [wProfile] (pyStrip wRunTask.profile) = none ∨
      wFSNoFiles.presetDirExists (pyStrip wRunTask.preset) = false ∨
      (useMappings wRunTask [wM1]).isEmpty = true ∨
      missingList wFSNoFiles (pyStrip wRunTask.preset) (useMappings wRunTask [wM1]) ≠ []) ∧
    ((runUpload [wProfile] [wM1] wFSNoFiles wNetOk wRunTask false).1 = false ∧
     (runUpload [wProfile] [wM1] wFSNoFiles wNetOk wRunTask false).2 =
       [preFirstError [wProfile] [wM1] wFSNoFiles wRunTask] ∧
     REv.netConnect ∉ (runUpload [wProfile] [wM1] wFSNoFiles wNetOk wRunTask false).2 ∧
     (∀ rf : String,
       REv.netUpload rf ∉ (runUpload [wProfile] [wM1] wFSNoFiles wNetOk wRunTask false).2) ∧
     (∀ lf rf : String,
       REv.uploaded lf rf ∉
         (runUpload [wProfile] [wM1] wFSNoFiles wNetOk wRunTask false).2)) :=
  ⟨by decide,
   preconditions_fail_fast [wProfile] [wM1] wFSNoFiles wNetOk wRunTask false
     (by decide)⟩

theorem resolver_pure_and_ordered_witness :
    resolveMappings "enabled" ["events", "loot"] [wM1, wMOff, wM2] = [wM1, wM2] ∧
    resolveMappings "selected" ["events", "loot"] [wM1, wMOff, wM2] =
      resolveMappings "selected" ["loot", "events"] [wM1, wMOff, wM2] :=
  ⟨by decide,
   (resolver_pure_and_ordered ["events", "loot"] ["loot", "events"]
       [wM1, wMOff, wM2]).2.2.2.2
     (by intro n; simp [List.mem_cons]; tauto)⟩

/-- C6: with all preconditions satisfied and `dry_run` set, the run
returns `True`, logs exactly one would-upload line per resolved mapping
in resolved order (then the client close), and never calls `connect`. -/
theorem dry_run_no_connection
    (profiles : List Profile) (mappings : List Mapping) (fs : FS)
    (net : NetBehavior) (task : RunTask) (p : Profile)
    (hp : findProfile profiles (pyStrip task.profile) = some p)
    (hd : fs.presetDirExists (pyStrip task.preset) = true)
    (hm : (useMappings task mappings).isEmpty = false)
    (hf : missingList fs (pyStrip task.preset) (useMappings task mappings) = []) :
    (runUpload profiles mappings fs net task true).1 = true ∧
    (runUpload profiles mappings fs net task true).2 =
      (useMappings task mappings).map (fun m =>
        REv.dryWouldUpload m.local_relpath
          (remoteFull (effRoot p.root) m.remote_path)) ++ [REv.netClose] ∧
    REv.netConnect ∉ (runUpload profiles mappings fs net task true).2 := by
  refine ⟨?_, ?_, ?_⟩ <;> simp [runUpload, hp, hd, hm, hf]

theorem dry_run_no_connection_witness :
    findProfile [wProfile] (pyStrip wRunTask.profile) = some wProfile ∧
    ((runUpload [wProfile] [wM1, wM2] wFSAll wNetOk wRunTask true).1 = true ∧
     (runUpload [wProfile] [wM1, wM2] wFSAll wNetOk wRunTask true).2 =
       (useMappings wRunTask [wM1, wM2]).map (fun m =>
         REv.dryWouldUpload m.local_relpath
           (remoteFull (effRoot wProfile.root) m.remote_path)) ++ [REv.netClose] ∧
     REv.netConnect ∉ (runUpload [wProfile] [wM1, wM2] wFSAll wNetOk wRunTask true).2) :=
  ⟨by decide,
   dry_run_no_connection [wProfile] [wM1, wM2] wFSAll wNetOk wRunTask wProfile
     (by decide) (by decide) (by decide) (by decide)⟩

theorem uploadLoop_all_ok (net : NetBehavior) (root : String) :
    ∀ ms : List Mapping,
      (∀ m ∈ ms, net.uploadOk (remoteFull root m.remote_path) = true) →
      (uploadLoop net root ms).1 = true ∧
      (∀ m ∈ ms, REv.uploaded m.local_relpath (remoteFull root m.remote_path) ∈
        (uploadLoop net root ms).2) ∧
      (∀ m ∈ ms, m.backup_before_overwrite = true →
        net.downloadOk (remoteFull root m.remote_path) = false →
        REv.backupWarn (remoteFull root m.remote_path) ∈ (uploadLoop net root ms).2) := by
  intro ms
  induction ms with
  | nil => intro hup; exact ⟨rfl, by simp, by simp⟩
  | cons m rest ih =>
    intro hup
    have hm : net.uploadOk (remoteFull root m.remote_path) = true :=
      hup m (by simp)
    have hrest := ih (fun m' hm' => hup m' (by simp [hm']))
    refine ⟨?_, ?_, ?_⟩
    · simp only [uploadLoop, hm, if_true]
      exact hrest.1
    · intro m' hm'
      rcases List.mem_cons.mp hm' with h | h
      · subst h
        simp [uploadLoop, hm]
      · have := hrest.2.1 m' h
        simp only [uploadLoop, hm, if_true]
        simp only [List.mem_append, List.mem_cons]
        tauto
    · intro m' hm' hb hdl
      rcases List.mem_cons.mp hm' with h | h
      · subst h
        simp [uploadLoop, hm, hb, hdl]
      · have := hrest.2.2 m' h hb hdl
        simp only [uploadLoop, hm, if_true]
        simp only [List.mem_append, List.mem_cons]
        tauto

/-- C7: in a real (non-dry) run with all preconditions satisfied, a
successful connect and all uploads succeeding, a failed backup download
for any mapping with `backup_before_overwrite` only logs a warning: the
mapping itself and all others are still uploaded and the run returns
`True`. -/
theorem backup_failure_nonfatal
    (profiles : List Profile) (mappings : List Mapping) (fs : FS)
    (net : NetBehavior) (task : RunTask) (p : Profile)
    (hp : findProfile profiles (pyStrip task.profile) = some p)
    (hd : fs.presetDirExists (pyStrip task.preset) = true)
    (hm : (useMappings task mappings).isEmpty = false)
    (hf : missingList fs (pyStrip task.preset) (useMappings task mappings) = [])
    (hc : net.connectOk = true)
    (hup : ∀ m ∈ useMappings task mappings,
      net.uploadOk (remoteFull (effRoot p.root) m.remote_path) = true) :
    (runUpload profiles mappings fs net task false).1 = true ∧
    (∀ m ∈ useMappings task mappings,
      REv.uploaded m.local_relpath (remoteFull (effRoot p.root) m.remote_path) ∈
        (runUpload profiles mappings fs net task false).2) ∧
    (∀ m ∈ useMappings task mappings, m.backup_before_overwrite = true →
      net.downloadOk (remoteFull (effRoot p.root) m.remote_path) = false →
      REv.backupWarn (remoteFull (effRoot p.root) m.remote_path) ∈
        (runUpload profiles mappings fs net task false).2) := by
  have hloop := uploadLoop_all_ok net (effRoot p.root) (useMappings task mappings) hup
  refine ⟨?_, ?_, ?_⟩
  · simp only [runUpload, hp, hd, hm, hf]
    simp [hc, hloop.1]
  · intro m hm'
    have := hloop.2.1 m hm'
    simp [runUpload, hp, hd, hm, hf, hc]
    tauto
  · intro m hm' hb hdl
    have := hloop.2.2 m hm' hb hdl
    simp [runUpload, hp, hd, hm, hf, hc]
    tauto

theorem backup_failure_nonfatal_witness :
    wM1.backup_before_overwrite = true ∧
    wNetOk.downloadOk (remoteFull (effRoot wProfile.root) wM1.remote_path) = false ∧
    ((runUpload [wProfile] [wM1, wM2] wFSAll wNetOk wRunTask false).1 = true ∧
     (∀ m ∈ useMappings wRunTask [wM1, wM2],
       REv.uploaded m.local_relpath (remoteFull (effRoot wProfile.root) m.remote_path) ∈
         (runUpload [wProfile] [wM1, wM2] wFSAll wNetOk wRunTask false).2) ∧
     (∀ m ∈ useMappings wRunTask [wM1, wM2], m.backup_before_overwrite = true →
       wNetOk.downloadOk (remoteFull (effRoot wProfile.root) m.remote_path) = false →
       REv.backupWarn (remoteFull (effRoot wProfile.root) m.remote_path) ∈
         (runUpload [wProfile] [wM1, wM2] wFSAll wNetOk wRunTask false).2)) :=
  ⟨by decide, by decide,
   backup_failure_nonfatal [wProfile] [wM1, wM2] wFSAll wNetOk wRunTask wProfile
     (by decide) (by decide) (by decide) (by decide) (by decide) (by decide)⟩

/-! ### String lemmas for remote-path normalization -/

theorem dropWhile_head_not (p : Char → Bool) :
    ∀ (l : List Char) (c : Char), (l.dropWhile p).head? = some c → p c = false := by
  intro l
  induction l with
  | nil => intro c h; simp at h
  | cons a t ih =>
    intro c h
    rw [List.dropWhile_cons] at h
    by_cases hp : p a = true
    · simp only [hp, if_true] at h
      exact ih c h
    · have hp2 : p a = false := by simpa using hp
      simp [hp2] at h
      subst h
      exact hp2

theorem chain'_dropWhile (p : Char → Bool) (l : List Char)
    (h : List.Chain' SlashOk l) : List.Chain' SlashOk (l.dropWhile p) :=
  List.Chain'.suffix h (List.dropWhile_suffix p)

theorem slashOk_comm (a b : Char) (h : SlashOk a b) : SlashOk b a := by
  unfold SlashOk at *
  tauto

theorem chain'_rstripSlash (l : List Char) (h : List.Chain' SlashOk l) :
    List.Chain' SlashOk (rstripSlashL l) := by
  unfold rstripSlashL
  rw [List.chain'_reverse]
  have h2 : List.Chain' (flip SlashOk) l.reverse := by
    rw [List.chain'_reverse]
    exact List.Chain'.imp (fun a b hab => slashOk_comm b a (slashOk_comm a b hab)) h
  have h3 := List.Chain'.suffix h2
    (List.dropWhile_suffix (fun c => c == '/'))
  exact List.Chain'.imp (fun a b hab => hab) h3

theorem rstripSlash_last_not (l : List Char) (c : Char)
    (h : (rstripSlashL l).getLast? = some c) : (c == '/') = false := by
  unfold rstripSlashL at h
  rw [List.getLast?_reverse] at h
  exact dropWhile_head_not (fun c => c == '/') l.reverse c h

theorem stripSlash_head_not (l : List Char) (c : Char)
    (h : (stripSlashL l).head? = some c) : (c == '/') = false := by
  unfold stripSlashL lstripSlashL at h
  exact dropWhile_head_not (fun c => c == '/') (rstripSlashL l) c h

theorem chain'_stripSlash (l : List Char) (h : List.Chain' SlashOk l) :
    List.Chain' SlashOk (stripSlashL l) :=
  chain'_dropWhile (fun c => c == '/') (rstripSlashL l) (chain'_rstripSlash l h)

theorem lstrip_head_not (l : List Char) (c : Char)
    (h : (lstripSlashL l).head? = some c) : (c == '/') = false :=
  dropWhile_head_not (fun c => c == '/') l c h

/-- Joining a right-stripped component and a left-stripped component
with a single `/` introduces no duplicated separator. -/
theorem chain'_join (A B : List Char)
    (hA : List.Chain' SlashOk A) (hB : List.Chain' SlashOk B)
    (hlast : ∀ c : Char, A.getLast? = some c → (c == '/') = false)
    (hhead : ∀ c : Char, B.head? = some c → (c == '/') = false) :
    List.Chain' SlashOk (A ++ '/' :: B) := by
  rw [List.chain'_append]
  refine ⟨hA, ?_, ?_⟩
  · rw [List.chain'_cons']
    refine ⟨?_, hB⟩
    intro y hy
    have := hhead y hy
    intro hc
    rw [hc.2] at this
    simp at this
  · intro x hx y hy
    simp only [List.head?_cons, Option.mem_def, Option.some.injEq] at hy
    subst hy
    have := hlast x hx
    intro hc
    rw [hc.1] at this
    simp at this

theorem remoteFull_data (root rp : String) :
    (remoteFull root rp).data =
      '/' :: stripSlashL (rstripSlashL root.data ++ '/' ::
        lstripSlashL (replSlashL rp.data)) := by
  have h1 : ("/" : String).data = ['/'] := rfl
  simp only [remoteFull, stripSlash, rstripSlash, norm_remote, String.data_append, h1]
  rw [List.append_assoc]
  rfl

theorem takeWhile_nil_of_head (p : Char → Bool) (S : List Char)
    (h : ∀ c, S.head? = some c → p c = false) : S.takeWhile p = [] := by
  cases S with
  | nil => rfl
  | cons a t => simp [List.takeWhile_cons, h a rfl]

/-- Boolean check for a duplicated `/` separator (adjacent slashes). -/
def noDupSepL : List Char → Bool
  | [] => true
  | [_] => true
  | a :: b :: t => !(a == '/' && b == '/') && noDupSepL (b :: t)

theorem noDupSep_iff (l : List Char) :
    noDupSepL l = true ↔ List.Chain' SlashOk l := by
  induction l with
  | nil => simp [noDupSepL]
  | cons a t ih =>
    cases t with
    | nil => simp [noDupSepL]
    | cons b t2 =>
      rw [noDupSepL, List.chain'_cons]
      rw [← ih]
      unfold SlashOk
      simp only [Bool.and_eq_true, Bool.not_eq_true', Bool.and_eq_false_iff,
        beq_iff_eq, beq_eq_false_iff_ne]
      constructor
      · intro h
        refine ⟨?_, h.2⟩
        intro hc
        rcases h.1 with h1 | h1 <;> [exact h1 hc.1; exact h1 hc.2]
      · intro h
        refine ⟨?_, h.2⟩
        by_cases ha : a = '/'
        · right
          intro hb
          exact h.1 ⟨ha, hb⟩
        · left
          exact ha

/-! ### Claim theorems: remote path construction -/

/-- C4 as stated is false: a duplicated separator entered inside the
mapping's remote path survives normalization, so the result is not free
of duplicated separators for every operator input. -/
theorem remote_path_dup_sep_cex :
    remoteFull (effRoot "/dayzstandalone/") "configs//loot.xml" =
      "/dayzstandalone/configs//loot.xml" ∧
    ¬ List.Chain' SlashOk ("/dayzstandalone/configs//loot.xml").data :=
  ⟨rfl, by rw [← noDupSep_iff]; decide⟩

/-- C4 (amended): the effective remote path always has exactly one
leading slash; the single-slash join duplicates no separator, so when
the operator-entered components themselves contain no consecutive
slashes (after backslash conversion) neither does the result; and the
spec's example normalizes as stated. -/
theorem remote_path_normalization
    (root rp root₂ rp₂ : String)
    (hroot : List.Chain' SlashOk (replSlashL root₂.data))
    (hrp : List.Chain' SlashOk (replSlashL rp₂.data)) :
    leadSlashes (remoteFull (effRoot root) rp) = 1 ∧
    List.Chain' SlashOk (remoteFull (effRoot root₂) rp₂).data ∧
    remoteFull (effRoot "/dayzstandalone/") "\\configs\\loot.xml" =
      "/dayzstandalone/configs/loot.xml" := by
  refine ⟨?_, ?_, rfl⟩
  · rw [leadSlashes, remoteFull_data]
    rw [List.takeWhile_cons]
    have hsl : (('/' : Char) == '/') = true := rfl
    rw [hsl]
    rw [takeWhile_nil_of_head (fun c => c == '/') _
      (fun c hc => stripSlash_head_not _ c hc)]
    rfl
  · rw [remoteFull_data]
    have hroot₀ : List.Chain' SlashOk
        (replSlashL (if root₂ = "" then ("/" : String) else root₂).data) := by
      by_cases h0 : root₂ = ""
      · simp only [h0, if_true]
        exact (noDupSep_iff _).mp rfl
      · simp only [h0, if_false]
        exact hroot
    have ha : List.Chain' SlashOk
        (lstripSlashL (replSlashL (if root₂ = "" then ("/" : String) else root₂).data)) :=
      chain'_dropWhile _ _ hroot₀
    have hb : List.Chain' SlashOk (lstripSlashL (replSlashL rp₂.data)) :=
      chain'_dropWhile _ _ hrp
    have hA : List.Chain' SlashOk (rstripSlashL
        (lstripSlashL (replSlashL (if root₂ = "" then ("/" : String) else root₂).data))) :=
      chain'_rstripSlash _ ha
    have hjoin := chain'_join _ _ hA hb
      (fun c hc => rstripSlash_last_not _ c hc)
      (fun c hc => lstrip_head_not _ c hc)
    have hstrip := chain'_stripSlash _ hjoin
    rw [List.chain'_cons']
    refine ⟨?_, hstrip⟩
    intro y hy
    have hys := stripSlash_head_not _ y hy
    intro hc
    rw [hc.2] at hys
    simp at hys

theorem remote_path_normalization_witness :
    List.Chain' SlashOk (replSlashL ("/dayzstandalone/" : String).data) ∧
    List.Chain' SlashOk (replSlashL ("\\configs\\loot.xml" : String).data) ∧
    (leadSlashes (remoteFull (effRoot "/dayzstandalone/") "\\configs\\loot.xml") = 1 ∧
     List.Chain' SlashOk
       (remoteFull (effRoot "/dayzstandalone/") "\\configs\\loot.xml").data ∧
     remoteFull (effRoot "/dayzstandalone/") "\\configs\\loot.xml" =
       "/dayzstandalone/configs/loot.xml") :=
  ⟨(noDupSep_iff _).mp rfl, (noDupSep_iff _).mp rfl,
   remote_path_normalization "/dayzstandalone/" "\\configs\\loot.xml"
     "/dayzstandalone/" "\\configs\\loot.xml"
     ((noDupSep_iff _).mp rfl) ((noDupSep_iff _).mp rfl)⟩
